import Mathlib

/-!
Verification of the Cursor chat-history export tool (`export_chats.py`).

The development shallowly embeds the row-processing pipeline of the
`CursorChatExporter` class: the two text-extraction heuristics
(`extract_chat_content`, `extract_text_content_broad`), timestamp
extraction (`extract_timestamp`), the keyword filter
(`filter_by_keywords`) and the date filter (`filter_by_date`), together
with the per-row entry emission loop of `query_database`.

Modelling conventions:
* A database scalar is `Value`: SQL NULL (Python `None`), an integer, or
  a text string.  Floats do not occur in any verified property and are
  omitted from the scalar type.
* Python `str(v)` is `pyStr`; Python truthiness of a scalar is `truthy`.
* Character classification (`isdigit`, `isalnum`, `lower`) is modelled on
  the ASCII range, which covers all string constants of the program.
* `datetime.fromtimestamp` is modelled as UTC (`fromtimestampISO`); it
  fails (raises, here: returns `none`) outside Python's supported year
  range 1..9999.  Sub-second precision is not modelled: the millisecond
  branch divides by 1000 exactly, which matches Python whenever the value
  is a multiple of 1000 (as in every verified property).
* `datetime.fromisoformat` is modelled (`fromisoformat`) on naive
  dates and date-times of the forms YYYY-MM-DD, YYYY-MM-DD HH:MM and
  YYYY-MM-DD HH:MM:SS with separator T or space; fractional seconds and
  UTC offsets are outside the model.
* The filesystem-derived fields of an entry (workspace info, table name,
  column list) are constant for a given row and carry no verified
  content; the embedded `CandidateEntry` keeps the row-dependent fields.
-/

/-- A scalar stored in a database row: NULL, an integer, or a string. -/
inductive Value where
  | vNull : Value
  | vInt : Int → Value
  | vStr : String → Value
deriving DecidableEq, Repr

/-- Python `str(v)` on a scalar (`str(None) = "None"`). -/
def pyStr : Value → String
  | Value.vNull => "None"
  | Value.vInt n => toString n
  | Value.vStr s => s

/-- Python truthiness of a scalar: `None`, `0` and `""` are falsy. -/
def truthy : Value → Bool
  | Value.vNull => false
  | Value.vInt n => n != 0
  | Value.vStr s => s != ""

/-- A row: an ordered mapping from column name to scalar (`dict(row)`). -/
abbrev Row := List (String × Value)

/-- Python `needle in hay` on strings: substring containment. -/
def strContains (hay needle : String) : Bool :=
  (List.range (hay.toList.length + 1)).any
    (fun i => needle.toList.isPrefixOf (hay.toList.drop i))

/-- Python `s.lower()` (ASCII model): lowercase every character. -/
def pyLower (s : String) : String :=
  String.mk (s.toList.map Char.toLower)

/-- Python `s.isdigit()`: non-empty and all digits (ASCII model). -/
def pyIsDigit (s : String) : Bool :=
  !s.toList.isEmpty && s.toList.all (fun c => c.isDigit)

/-- Python `t.isalnum()` on a character list: non-empty, all alphanumeric. -/
def pyIsAlnumChars (l : List Char) : Bool :=
  !l.isEmpty && l.all (fun c => c.isAlphanum)

/-- The characters of `s.replace('-', '').replace('_', '')`. -/
def stripIdChars (s : String) : List Char :=
  s.toList.filter (fun c => !(c == '-' || c == '_'))

/-- Python `"\n".join(lines)`. -/
def joinNL : List String → String
  | [] => ""
  | [x] => x
  | x :: xs => x ++ "\n" ++ joinNL xs

/-- The broad heuristic's per-field test from `extract_text_content_broad`:
`len(str_value) > 5 and not str_value.isdigit() and
 not (len(str_value) < 50 and
      str_value.replace('-', '').replace('_', '').isalnum())`. -/
def qualifies (s : String) : Bool :=
  decide (s.length > 5) && !(pyIsDigit s) &&
    !(decide (s.length < 50) && pyIsAlnumChars (stripIdChars s))

/-- The fixed list `chat_keys` of `extract_chat_content`. -/
def chat_keys : List String :=
  ["composer.composerData",
   "workbench.panel.aichat",
   "workbench.panel.composerChatViewPane",
   "aiService.generations",
   "aiService.prompts"]

/-- Embeds `CursorChatExporter.extract_chat_content`: rows exposing both a
`key` and a `value` column whose key contains a known chat-key substring
yield `CHAT_DATA - key: value`. -/
def extract_chat_content (row : Row) : Option String :=
  match row.lookup "key", row.lookup "value" with
  | some kv, some vv =>
      let key := pyStr kv
      let value := pyStr vv
      if chat_keys.any (fun ck => strContains key ck) then
        some ("CHAT_DATA - " ++ key ++ ": " ++ value)
      else
        none
  | _, _ => none

/-- The loop body of `extract_text_content_broad`: the `key: value` lines
collected from the non-NULL fields whose string form qualifies. -/
def broadLines : Row → List String
  | [] => []
  | (k, v) :: rest =>
      if v = Value.vNull then broadLines rest
      else
        let s := pyStr v
        if qualifies s then (k ++ ": " ++ s) :: broadLines rest
        else broadLines rest

/-- Embeds `CursorChatExporter.extract_text_content_broad`. -/
def extract_text_content_broad (row : Row) : Option String :=
  match broadLines row with
  | [] => none
  | l => some (joinNL l)

/-- A naive `datetime.datetime` value (no timezone, no microseconds). -/
structure PyDateTime where
  year : Nat
  month : Nat
  day : Nat
  hour : Nat
  minute : Nat
  second : Nat
deriving DecidableEq, Repr

/-- Gregorian leap-year test. -/
def isLeap (y : Nat) : Bool :=
  (y % 4 == 0 && y % 100 != 0) || y % 400 == 0

/-- Days in a month of the proleptic Gregorian calendar. -/
def daysInMonth (y m : Nat) : Nat :=
  if m = 2 then (if isLeap y then 29 else 28)
  else if m = 4 ∨ m = 6 ∨ m = 9 ∨ m = 11 then 30
  else 31

/-- Numeric value of a decimal digit character. -/
def d2n (c : Char) : Nat := c.toNat - 48

/-- Parse the 10-character date part `YYYY-MM-DD`, validating ranges as
`datetime` does (year 1..9999, month 1..12, day 1..days-in-month). -/
def parseDateChars : List Char → Option (Nat × Nat × Nat)
  | [y1, y2, y3, y4, s1, m1, m2, s2, d1, d2] =>
      if y1.isDigit && y2.isDigit && y3.isDigit && y4.isDigit &&
         s1 == '-' && m1.isDigit && m2.isDigit &&
         s2 == '-' && d1.isDigit && d2.isDigit then
        let y := ((d2n y1 * 10 + d2n y2) * 10 + d2n y3) * 10 + d2n y4
        let m := d2n m1 * 10 + d2n m2
        let d := d2n d1 * 10 + d2n d2
        if 1 ≤ y ∧ 1 ≤ m ∧ m ≤ 12 ∧ 1 ≤ d ∧ d ≤ daysInMonth y m then
          some (y, m, d)
        else none
      else none
  | _ => none

/-- Parse a time part `HH:MM` or `HH:MM:SS` with range validation. -/
def parseTimeChars : List Char → Option (Nat × Nat × Nat)
  | [h1, h2, c1, m1, m2] =>
      if h1.isDigit && h2.isDigit && c1 == ':' && m1.isDigit && m2.isDigit then
        let h := d2n h1 * 10 + d2n h2
        let mi := d2n m1 * 10 + d2n m2
        if h ≤ 23 ∧ mi ≤ 59 then some (h, mi, 0) else none
      else none
  | [h1, h2, c1, m1, m2, c2, s1, s2] =>
      if h1.isDigit && h2.isDigit && c1 == ':' && m1.isDigit && m2.isDigit &&
         c2 == ':' && s1.isDigit && s2.isDigit then
        let h := d2n h1 * 10 + d2n h2
        let mi := d2n m1 * 10 + d2n m2
        let se := d2n s1 * 10 + d2n s2
        if h ≤ 23 ∧ mi ≤ 59 ∧ se ≤ 59 then some (h, mi, se) else none
      else none
  | _ => none

/-- Models `datetime.fromisoformat` on the naive subset used by the program:
`YYYY-MM-DD`, optionally followed by a `T` or space separator and
`HH:MM[:SS]`.  Fractional seconds and UTC offsets are outside the model;
any other string raises `ValueError` in Python and yields `none` here. -/
def fromisoformat (s : String) : Option PyDateTime :=
  let cs := s.toList
  match parseDateChars (cs.take 10) with
  | none => none
  | some (y, m, d) =>
      match cs.drop 10 with
      | [] => some ⟨y, m, d, 0, 0, 0⟩
      | sep :: timePart =>
          if sep == 'T' || sep == ' ' then
            match parseTimeChars timePart with
            | some (h, mi, se) => some ⟨y, m, d, h, mi, se⟩
            | none => none
          else none

/-- Python `ts.replace('Z', '+00:00')`. -/
def replaceZ (s : String) : String :=
  String.mk (s.toList.flatMap (fun c =>
    if c == 'Z' then "+00:00".toList else [c]))

/-- Models `datetime.__lt__`: lexicographic comparison of the components. -/
def pyDTlt (a b : PyDateTime) : Bool :=
  if a.year < b.year then true else if b.year < a.year then false
  else if a.month < b.month then true else if b.month < a.month then false
  else if a.day < b.day then true else if b.day < a.day then false
  else if a.hour < b.hour then true else if b.hour < a.hour then false
  else if a.minute < b.minute then true else if b.minute < a.minute then false
  else decide (a.second < b.second)

/-- Civil date from a day count where day 0 is 0001-01-01 (proleptic
Gregorian), following the standard era-based conversion. -/
def civilFromDays (d : Nat) : Nat × Nat × Nat :=
  let z := d + 306
  let era := z / 146097
  let doe := z % 146097
  let yoe := (doe - doe / 1460 + doe / 36524 - doe / 146096) / 365
  let y := yoe + era * 400
  let doy := doe - (365 * yoe + yoe / 4 - yoe / 100)
  let mp := (5 * doy + 2) / 153
  let day := doy - (153 * mp + 2) / 5 + 1
  let m := if mp < 10 then mp + 3 else mp - 9
  let year := if m ≤ 2 then y + 1 else y
  (year, m, day)

/-- Zero-pad a number to two digits. -/
def pad2 (n : Nat) : String :=
  if n < 10 then "0" ++ toString n else toString n

/-- Zero-pad a number to four digits. -/
def pad4 (n : Nat) : String :=
  if n < 10 then "000" ++ toString n
  else if n < 100 then "00" ++ toString n
  else if n < 1000 then "0" ++ toString n
  else toString n

/-- Seconds from 0001-01-01T00:00:00 UTC to the Unix epoch. -/
def epochShift : Int := 62135596800

/-- Models `datetime.fromtimestamp(ts).isoformat()` in UTC on whole
seconds: `none` when the timestamp falls outside Python's year range
1..9999, where `fromtimestamp` raises and the caller falls through. -/
def fromtimestampISO (ts : Int) : Option String :=
  if ts < -epochShift ∨ ts > 253402300799 then none
  else
    let t : Nat := (ts + epochShift).toNat
    let days := t / 86400
    let secs := t % 86400
    let ymd := civilFromDays days
    some (pad4 ymd.1 ++ "-" ++ pad2 ymd.2.1 ++ "-" ++ pad2 ymd.2.2 ++ "T" ++
          pad2 (secs / 3600) ++ ":" ++ pad2 (secs % 3600 / 60) ++ ":" ++
          pad2 (secs % 60))

/-- The ordered candidate field names of `extract_timestamp`. -/
def timestamp_keys : List String :=
  ["timestamp", "created_at", "updated_at", "time", "date"]

/-- The loop of `extract_timestamp`: probe candidate keys in order; a
key present with a truthy value is interpreted (numeric: epoch with the
millisecond rule; otherwise `str`); a failing interpretation falls
through to the next key. -/
def extract_timestamp_go (row : Row) : List String → Option String
  | [] => none
  | k :: ks =>
      match row.lookup k with
      | none => extract_timestamp_go row ks
      | some v =>
          if truthy v then
            match v with
            | Value.vInt n =>
                let ts : Int := if n > 10 ^ 12 then n / 1000 else n
                match fromtimestampISO ts with
                | some s => some s
                | none => extract_timestamp_go row ks
            | _ => some (pyStr v)
          else extract_timestamp_go row ks

/-- Embeds `CursorChatExporter.extract_timestamp`. -/
def extract_timestamp (row : Row) : Option String :=
  extract_timestamp_go row timestamp_keys

/-- Interpretation of a single truthy candidate value, as §4.3 of the
spec describes it: numeric values above 1e12 are milliseconds, other
numeric values seconds, non-numeric values are taken verbatim. -/
def interpretTS : Value → Option String
  | Value.vInt n => fromtimestampISO (if n > 10 ^ 12 then n / 1000 else n)
  | v => some (pyStr v)

/-- Modelled from the spec (§4.3, with the truthiness amendment): the
result is the first successful interpretation among the candidate keys
that are present with a truthy value, probed in the fixed order. -/
def timestampSpec (row : Row) : Option String :=
  (timestamp_keys.filterMap (fun k =>
    match row.lookup k with
    | some v => if truthy v then interpretTS v else none
    | none => none)).head?

/-- The row-dependent fields of one exported record, built in the
per-row loop of `query_database`.  `data_type` is `some "chat_data"` on
the strict-heuristic path and absent on the broad path;
`matched_keywords` is absent until the keyword filter adds it. -/
structure CandidateEntry where
  raw_data : Row
  text_content : String
  timestamp : Option String
  data_type : Option String
  matched_keywords : Option (List String)
deriving DecidableEq, Repr

/-- Build the entry `query_database` appends for a row: tagged for the
strict heuristic, untagged for the broad one. -/
def mkEntry (row : Row) (text : String) (tag : Option String) : CandidateEntry :=
  { raw_data := row
    text_content := text
    timestamp := extract_timestamp row
    data_type := tag
    matched_keywords := none }

/-- The body of `query_database`'s row loop: the strict heuristic is
tried first (`if chat_content:`), then the broad one
(`if text_content:`); each truthy result appends one entry. -/
def process_row (row : Row) : List CandidateEntry :=
  (match extract_chat_content row with
   | some c => if c = "" then [] else [mkEntry row c (some "chat_data")]
   | none => []) ++
  (match extract_text_content_broad row with
   | some t => if t = "" then [] else [mkEntry row t none]
   | none => [])

/-- The loop of `filter_by_keywords`, with the keyword list already
lowercased: an entry passes when any keyword occurs in its lowercased
text, and then gains the list of matching keywords. -/
def filterKw (kws : List String) : List CandidateEntry → List CandidateEntry
  | [] => []
  | chat :: rest =>
      let text := pyLower chat.text_content
      if kws.any (fun k => strContains text k) then
        let upd := { chat with
          matched_keywords := some (kws.filter (fun k => strContains text k)) }
        upd :: filterKw kws rest
      else filterKw kws rest

/-- Embeds `CursorChatExporter.filter_by_keywords`. -/
def filter_by_keywords (chats : List CandidateEntry)
    (keywords : List String) : List CandidateEntry :=
  if keywords.isEmpty then chats
  else filterKw (keywords.map pyLower) chats

/-- The `matched_keywords` list the filter computes for an entry: the
lowercased keywords occurring in the entry's lowercased text, in the
order of the supplied keyword list. -/
def matchedOf (keywords : List String) (c : CandidateEntry) : List String :=
  (keywords.map pyLower).filter
    (fun k => strContains (pyLower c.text_content) k)

/-- The only change the keyword filter makes to a surviving entry:
with a non-empty keyword list, `matched_keywords` is set. -/
def withMatched (keywords : List String) (c : CandidateEntry) : CandidateEntry :=
  if keywords.isEmpty then c
  else { c with matched_keywords := some (matchedOf keywords c) }

/-- The update the keyword-filter loop applies to a passing entry, for a
keyword list that is already lowercased. -/
def updKw (kws : List String) (c : CandidateEntry) : CandidateEntry :=
  { c with
    matched_keywords :=
      some (kws.filter (fun k => strContains (pyLower c.text_content) k)) }

/-- Python truthiness of an optional string (`None` and `""` falsy). -/
def optStrTruthy : Option String → Bool
  | none => false
  | some s => s != ""

/-- The bound-parsing step of `filter_by_date`:
`datetime.fromisoformat(d) if d else None` under `try`.  `some none`
means no bound, `some (some dt)` a parsed bound, `none` a `ValueError`. -/
def parseBound : Option String → Option (Option PyDateTime)
  | none => some none
  | some s => if s = "" then some none else (fromisoformat s).map some

/-- The test `start_dt and chat_dt < start_dt` of the date filter. -/
def beforeStart (sdt : Option PyDateTime) (cdt : PyDateTime) : Bool :=
  match sdt with
  | some sd => pyDTlt cdt sd
  | none => false

/-- The test `end_dt and chat_dt > end_dt` of the date filter. -/
def afterEnd (edt : Option PyDateTime) (cdt : PyDateTime) : Bool :=
  match edt with
  | some ed => pyDTlt ed cdt
  | none => false

/-- The entry loop of `filter_by_date`: entries without a truthy
timestamp are skipped, unparseable timestamps are skipped, and an entry
is kept when it is not strictly before the start bound nor strictly
after the end bound. -/
def dateLoop (sdt edt : Option PyDateTime) :
    List CandidateEntry → List CandidateEntry
  | [] => []
  | chat :: rest =>
      match chat.timestamp with
      | none => dateLoop sdt edt rest
      | some ts =>
          if ts = "" then dateLoop sdt edt rest
          else
            match fromisoformat (replaceZ ts) with
            | none => dateLoop sdt edt rest
            | some cdt =>
                if beforeStart sdt cdt then dateLoop sdt edt rest
                else if afterEnd edt cdt then dateLoop sdt edt rest
                else chat :: dateLoop sdt edt rest

/-- Embeds `CursorChatExporter.filter_by_date`. -/
def filter_by_date (chats : List CandidateEntry)
    (start_date end_date : Option String) : List CandidateEntry :=
  if !(optStrTruthy start_date) && !(optStrTruthy end_date) then chats
  else
    match parseBound start_date, parseBound end_date with
    | some sdt, some edt => dateLoop sdt edt chats
    | _, _ => chats

/-- The keep-predicate the date filter implements, per entry: the
timestamp parses (after `Z` replacement) and the parsed instant is
within the active bounds inclusively. -/
def keepB (sdt edt : Option PyDateTime) (c : CandidateEntry) : Bool :=
  match c.timestamp with
  | none => false
  | some ts =>
      match fromisoformat (replaceZ ts) with
      | none => false
      | some cdt => !(beforeStart sdt cdt) && !(afterEnd edt cdt)

/-- A bound string on which the date filter's `fromisoformat` raises
`ValueError`: truthy but not parseable. -/
def malformedBound : Option String → Bool
  | none => false
  | some s => s != "" && (fromisoformat s).isNone

/-- The fields the broad heuristic keeps: non-NULL and qualifying. -/
def broadQual (row : Row) : Row :=
  row.filter (fun p => !(p.2 == Value.vNull) && qualifies (pyStr p.2))

/-- The spec's notion of a short identifier-like token, amended to match
the code: shorter than 50 characters, containing at least one character
besides hyphens and underscores, and with every character alphanumeric,
a hyphen, or an underscore. -/
def identLike (s : String) : Prop :=
  s.length < 50 ∧
  (∃ c ∈ s.toList, ¬(c = '-' ∨ c = '_')) ∧
  (∀ c ∈ s.toList, c.isAlphanum = true ∨ c = '-' ∨ c = '_')

/-- The spec's qualification conditions on a field's string form (§4.2,
with the identifier clause amended as in `identLike`): length above 5,
not purely numeric, not an identifier-like token. -/
def qualifiesSpec (s : String) : Prop :=
  s.length > 5 ∧ ¬(pyIsDigit s = true) ∧ ¬ identLike s

/-- A sample entry used to instantiate filter theorems. -/
def sampleEntry : CandidateEntry :=
  { raw_data := []
    text_content := "We love Rails and APIs"
    timestamp := none
    data_type := none
    matched_keywords := none }

/-- The keyword-filter output entry for `sampleEntry`. -/
def sampleEntryMatched : CandidateEntry :=
  { sampleEntry with matched_keywords := some ["rails"] }

/-- An entry timestamped one second before 2024-06-01. -/
def entryMay31 : CandidateEntry :=
  { raw_data := []
    text_content := "x"
    timestamp := some "2024-05-31T23:59:59"
    data_type := none
    matched_keywords := none }

/-- An entry timestamped exactly at 2024-06-01T00:00:00. -/
def entryJune1 : CandidateEntry :=
  { raw_data := []
    text_content := "y"
    timestamp := some "2024-06-01T00:00:00"
    data_type := none
    matched_keywords := none }

/-- A sample row on which both heuristics fire. -/
def row8 : Row :=
  [("key", Value.vStr "aiService.prompts"),
   ("value", Value.vStr "hello world!!")]

theorem broadLines_eq (row : Row) :
    broadLines row = (broadQual row).map (fun p => p.1 ++ ": " ++ pyStr p.2) := by
  induction row with
  | nil => rfl
  | cons p rest ih =>
      obtain ⟨k, v⟩ := p
      by_cases hv : v = Value.vNull
      · subst hv
        simpa [broadLines, broadQual, List.filter_cons] using ih
      · by_cases hq : qualifies (pyStr v) = true
        · simp [broadLines, broadQual, List.filter_cons, hv, hq] at ih ⊢
          exact ih
        · simp [broadLines, broadQual, List.filter_cons, hv, hq] at ih ⊢
          exact ih

theorem qualifies_iff (s : String) : qualifies s = true ↔ qualifiesSpec s := by
  have hfilter : ∀ c : Char, (!(c == '-' || c == '_')) = true ↔ ¬(c = '-' ∨ c = '_') := by
    intro c; simp
  constructor
  · intro h
    simp only [qualifies, Bool.and_eq_true, Bool.not_eq_true', decide_eq_true_eq] at h
    obtain ⟨⟨h5, hd⟩, hid⟩ := h
    refine ⟨h5, by simp [hd], ?_⟩
    rintro ⟨h50, ⟨c, hc, hcne⟩, hall⟩
    have hmem : c ∈ stripIdChars s := List.mem_filter.mpr ⟨hc, (hfilter c).mpr hcne⟩
    have halnum : (stripIdChars s).all (fun c => c.isAlphanum) = true := by
      rw [List.all_eq_true]
      intro x hx
      have hx' := List.mem_filter.mp hx
      rcases hall x hx'.1 with ha | ha | ha
      · exact ha
      · exact absurd ha (not_or.mp ((hfilter x).mp hx'.2)).1
      · exact absurd ha (not_or.mp ((hfilter x).mp hx'.2)).2
    have hne' : (stripIdChars s).isEmpty = false := by
      cases hl : stripIdChars s with
      | nil => rw [hl] at hmem; exact absurd hmem (List.not_mem_nil c)
      | cons a l => rfl
    have hptrue : pyIsAlnumChars (stripIdChars s) = true := by
      simp only [pyIsAlnumChars, hne', halnum, Bool.not_false, Bool.true_and]
    rw [hptrue, Bool.and_true, decide_eq_true h50] at hid
    simp at hid
  · rintro ⟨h5, hd, hid⟩
    simp only [qualifies, Bool.and_eq_true, Bool.not_eq_true', decide_eq_true_eq]
    refine ⟨⟨h5, by simpa using hd⟩, ?_⟩
    by_cases h50 : s.length < 50
    · rw [decide_eq_true h50, Bool.true_and]
      by_contra hcon
      rw [Bool.not_eq_false] at hcon
      simp only [pyIsAlnumChars, Bool.and_eq_true, Bool.not_eq_true',
        List.all_eq_true] at hcon
      obtain ⟨hne, hall⟩ := hcon
      apply hid
      refine ⟨h50, ?_, ?_⟩
      · have hnil : stripIdChars s ≠ [] := by
          intro h0; rw [h0] at hne; simp at hne
        rcases List.exists_mem_of_ne_nil (stripIdChars s) hnil with ⟨c, hc⟩
        have hc' := List.mem_filter.mp hc
        exact ⟨c, hc'.1, (hfilter c).mp hc'.2⟩
      · intro c hc
        by_cases hdash : c = '-' ∨ c = '_'
        · rcases hdash with h | h
          · exact Or.inr (Or.inl h)
          · exact Or.inr (Or.inr h)
        · exact Or.inl (hall c (List.mem_filter.mpr ⟨hc, (hfilter c).mpr hdash⟩))
    · rw [decide_eq_false h50, Bool.false_and]

theorem chatPrefix_ne_empty (x : String) : ("CHAT_DATA - " ++ x) ≠ "" := by
  intro h
  have h2 := congrArg String.length h
  rw [String.length_append] at h2
  have h3 : ("CHAT_DATA - " : String).length = 12 := rfl
  have h4 : ("" : String).length = 0 := rfl
  omega

theorem extract_chat_content_ne_empty (row : Row) (c : String)
    (h : extract_chat_content row = some c) : c ≠ "" := by
  unfold extract_chat_content at h
  split at h
  · simp only [] at h
    split at h
    · rw [Option.some_inj] at h
      exact h ▸ chatPrefix_ne_empty _
    · exact absurd h (by simp)
  · exact absurd h (by simp)

theorem joinNL_head_length (x : String) (xs : List String) :
    x.length ≤ (joinNL (x :: xs)).length := by
  cases xs with
  | nil => simp [joinNL]
  | cons y ys =>
      show x.length ≤ (x ++ "\n" ++ joinNL (y :: ys)).length
      rw [String.length_append, String.length_append]
      omega

theorem broadLines_mem_length (row : Row) (x : String)
    (h : x ∈ broadLines row) : 2 ≤ x.length := by
  rw [broadLines_eq] at h
  rcases List.mem_map.mp h with ⟨p, hp, hx⟩
  rw [← hx, String.length_append, String.length_append]
  have : (": " : String).length = 2 := rfl
  omega

theorem extract_text_content_broad_ne_empty (row : Row) (t : String)
    (h : extract_text_content_broad row = some t) : t ≠ "" := by
  unfold extract_text_content_broad at h
  intro ht
  subst ht
  cases hl : broadLines row with
  | nil => rw [hl] at h; exact absurd h (by simp)
  | cons x xs =>
      rw [hl, Option.some_inj] at h
      have h1 := joinNL_head_length x xs
      have h2 := broadLines_mem_length row x (by rw [hl]; exact List.mem_cons_self x xs)
      rw [h] at h1
      have h4 : ("" : String).length = 0 := rfl
      omega

theorem extract_timestamp_go_eq (row : Row) (ks : List String) :
    extract_timestamp_go row ks =
      (ks.filterMap (fun k =>
        match row.lookup k with
        | some v => if truthy v then interpretTS v else none
        | none => none)).head? := by
  induction ks with
  | nil => rfl
  | cons k ks ih =>
      simp only [extract_timestamp_go, List.filterMap_cons]
      cases hk : row.lookup k with
      | none => exact ih
      | some v =>
          simp only []
          by_cases ht : truthy v = true
          · cases v with
            | vNull => simp [truthy] at ht
            | vStr s => simp [ht, interpretTS, pyStr]
            | vInt n =>
                simp only [ht, if_true, interpretTS]
                split
                · next x s hf => rw [hf]; rfl
                · next x hf => rw [hf]; exact ih
          · simp only [if_neg ht]
            exact ih

theorem dateLoop_eq_filter (sdt edt : Option PyDateTime)
    (chats : List CandidateEntry) :
    dateLoop sdt edt chats = chats.filter (keepB sdt edt) := by
  induction chats with
  | nil => rfl
  | cons chat rest ih =>
      simp only [dateLoop, List.filter_cons]
      cases hts : chat.timestamp with
      | none => simp [keepB, hts, ih]
      | some ts =>
          by_cases hempty : ts = ""
          · subst hempty
            have : keepB sdt edt chat = false := by
              simp [keepB, hts]
              rfl
            simp [this, ih]
          · simp only []
            rw [if_neg hempty]
            cases hdt : fromisoformat (replaceZ ts) with
            | none => simp [keepB, hts, hdt, ih]
            | some cdt =>
                cases hbs : beforeStart sdt cdt with
                | true => simp [keepB, hts, hdt, hbs, ih]
                | false =>
                    cases hae : afterEnd edt cdt with
                    | true => simp [keepB, hts, hdt, hbs, hae, ih]
                    | false => simp [keepB, hts, hdt, hbs, hae, ih]

theorem filterKw_idem (kws : List String) (chats : List CandidateEntry) :
    filterKw kws (filterKw kws chats) = filterKw kws chats := by
  induction chats with
  | nil => rfl
  | cons chat rest ih =>
      simp only [filterKw]
      by_cases h : kws.any
          (fun k => strContains (pyLower chat.text_content) k) = true
      · simp only [h, if_true, filterKw, ih]
      · simp only [h, Bool.false_eq_true, if_false]
        exact ih

theorem filterKw_sublist (kws : List String) (chats : List CandidateEntry) :
    (filterKw kws chats).Sublist (chats.map (updKw kws)) := by
  induction chats with
  | nil => simp [filterKw]
  | cons chat rest ih =>
      simp only [filterKw, List.map_cons, updKw]
      by_cases h : kws.any
          (fun k => strContains (pyLower chat.text_content) k) = true
      · rw [if_pos h]
        exact ih.cons₂ _
      · rw [if_neg h]
        exact ih.cons _

theorem filterKw_mem (kws : List String) (chats : List CandidateEntry)
    (e : CandidateEntry) (he : e ∈ filterKw kws chats) :
    e.matched_keywords =
      some (kws.filter (fun k => strContains (pyLower e.text_content) k)) := by
  induction chats with
  | nil => simp [filterKw] at he
  | cons chat rest ih =>
      simp only [filterKw] at he
      by_cases h : kws.any
          (fun k => strContains (pyLower chat.text_content) k) = true
      · rw [if_pos h, List.mem_cons] at he
        rcases he with he | he
        · subst he; rfl
        · exact ih he
      · rw [if_neg (by simpa using h)] at he
        exact ih he

/-- C1: for every row exposing both a `key` and a `value` field, if the
string form of the key contains one of the fixed chat-key substrings the
strict heuristic yields exactly `CHAT_DATA - key: value` and the row's
emitted entry carries the `chat_data` tag; with no matching substring,
or with `key` or `value` missing, the strict heuristic yields nothing.
The spec's concrete instance (key `composer.composerData.xyz`, value
`hello`) is the final conjunct. -/
theorem C1_strict_heuristic (row : Row) :
    (∀ kv vv, row.lookup "key" = some kv → row.lookup "value" = some vv →
      ((chat_keys.any (fun ck => strContains (pyStr kv) ck) = true →
          extract_chat_content row =
            some ("CHAT_DATA - " ++ pyStr kv ++ ": " ++ pyStr vv) ∧
          mkEntry row ("CHAT_DATA - " ++ pyStr kv ++ ": " ++ pyStr vv)
              (some "chat_data") ∈ process_row row) ∧
       (chat_keys.any (fun ck => strContains (pyStr kv) ck) = false →
          extract_chat_content row = none))) ∧
    ((row.lookup "key" = none ∨ row.lookup "value" = none) →
       extract_chat_content row = none) ∧
    extract_chat_content
        [("key", Value.vStr "composer.composerData.xyz"),
         ("value", Value.vStr "hello")] =
      some "CHAT_DATA - composer.composerData.xyz: hello" := by
  refine ⟨?_, ?_, by decide⟩
  · intro kv vv hk hv
    constructor
    · intro hany
      have hcc : extract_chat_content row =
          some ("CHAT_DATA - " ++ pyStr kv ++ ": " ++ pyStr vv) := by
        unfold extract_chat_content
        rw [hk, hv]
        simp only [hany, if_true]
      refine ⟨hcc, ?_⟩
      have hne := extract_chat_content_ne_empty row _ hcc
      unfold process_row
      rw [hcc]
      simp only [hne, if_false]
      exact List.mem_append_left _ (List.mem_cons_self _ _)
    · intro hnone
      unfold extract_chat_content
      rw [hk, hv]
      simp only [hnone, Bool.false_eq_true, if_false]
  · intro hmiss
    unfold extract_chat_content
    rcases hmiss with h | h
    · rw [h]
    · rw [h]
      cases row.lookup "key" <;> rfl

/-- C1 witness: the concrete strict-heuristic instance. -/
theorem C1_witness :
    extract_chat_content
        [("key", Value.vStr "composer.composerData.xyz"),
         ("value", Value.vStr "hello")] =
      some "CHAT_DATA - composer.composerData.xyz: hello" :=
  (C1_strict_heuristic []).2.2

/-- C2 counterexample: the string `------` has length 6 (above the
threshold), is below 50 characters, and is composed exclusively of
hyphens and underscores, so under the claim it is a short
identifier-like token and must be excluded — yet the broad heuristic
emits it, because `"".isalnum()` is false after stripping. -/
theorem C2_counterexample :
    extract_text_content_broad [("k", Value.vStr "------")] = some "k: ------" ∧
    "------".length < 50 ∧
    "------".toList.all (fun c => c == '-' || c == '_') = true := by
  refine ⟨rfl, by decide, by decide⟩

/-- C2 (amended): the broad heuristic's output is non-empty exactly when
some non-NULL field's string form qualifies (length above 5, not purely
numeric, not identifier-like in the amended sense of `identLike`, which
additionally requires a character besides hyphens and underscores); the
output is the qualifying fields rendered as `key: value` lines joined by
newlines, and every contributing field qualifies. -/
theorem C2_broad_heuristic (row : Row) :
    (extract_text_content_broad row ≠ none ↔
      ∃ kv ∈ row, kv.2 ≠ Value.vNull ∧ qualifiesSpec (pyStr kv.2)) ∧
    (extract_text_content_broad row =
      if (broadQual row).isEmpty then none
      else some (joinNL ((broadQual row).map (fun p => p.1 ++ ": " ++ pyStr p.2)))) ∧
    (∀ p ∈ broadQual row, p.2 ≠ Value.vNull ∧ qualifiesSpec (pyStr p.2)) := by
  have hpred : ∀ p : String × Value,
      ((!(p.2 == Value.vNull) && qualifies (pyStr p.2)) = true ↔
        (p.2 ≠ Value.vNull ∧ qualifiesSpec (pyStr p.2))) := by
    intro p
    rw [Bool.and_eq_true, Bool.not_eq_true', beq_eq_false_iff_ne, qualifies_iff]
  have hsecond : extract_text_content_broad row =
      if (broadQual row).isEmpty then none
      else some (joinNL ((broadQual row).map (fun p => p.1 ++ ": " ++ pyStr p.2))) := by
    unfold extract_text_content_broad
    rw [broadLines_eq]
    cases hq : broadQual row with
    | nil => rfl
    | cons p ps => rfl
  refine ⟨?_, hsecond, ?_⟩
  · rw [hsecond]
    cases hq : broadQual row with
    | nil =>
        simp only [List.isEmpty_nil, if_true, ne_eq, not_true_eq_false,
          false_iff]
        rintro ⟨kv, hkv, hnull, hqual⟩
        have : (!(kv.2 == Value.vNull) && qualifies (pyStr kv.2)) = true :=
          (hpred kv).mpr ⟨hnull, hqual⟩
        have hmem : kv ∈ broadQual row := List.mem_filter.mpr ⟨hkv, this⟩
        rw [hq] at hmem
        exact absurd hmem (List.not_mem_nil kv)
    | cons p ps =>
        simp only [List.isEmpty_cons, if_false, ne_eq, reduceCtorEq,
          not_false_eq_true, true_iff]
        have hmem : p ∈ broadQual row := by
          rw [hq]; exact List.mem_cons_self p ps
        have hp := List.mem_filter.mp hmem
        exact ⟨p, hp.1, (hpred p).mp hp.2⟩
  · intro p hp
    have hp' := List.mem_filter.mp hp
    exact (hpred p).mp hp'.2

/-- C2 witness: a concrete row with one qualifying field. -/
theorem C2_witness :
    extract_text_content_broad [("k", Value.vStr "hello world")] =
      some "k: hello world" :=
  ((C2_broad_heuristic [("k", Value.vStr "hello world")]).2.1).trans (by decide)

/-- C3 counterexample: the row with field `timestamp = 0` carries a
present, non-null candidate whose interpretation succeeds (epoch 0 is
the valid instant 1970-01-01T00:00:00), yet extraction yields nothing,
because the code's `if key in row_dict and row_dict[key]` test rejects
the falsy value `0`. -/
theorem C3_counterexample :
    extract_timestamp [("timestamp", Value.vInt 0)] = none ∧
    fromtimestampISO 0 = some "1970-01-01T00:00:00" :=
  ⟨rfl, rfl⟩

/-- C3 (amended): timestamp extraction probes the candidate field names
in the fixed order and uses the first field present with a truthy value
(non-null, non-zero, non-empty); a numeric value is interpreted as an
epoch (above 1e12 as milliseconds, else seconds) and rendered ISO-8601,
a non-numeric value is returned verbatim, a failing interpretation falls
through to the next candidate, and with no success the result is absent
— i.e. extraction coincides with the spec-worded probe
`timestampSpec`. -/
theorem C3_timestamp_probe (row : Row) :
    extract_timestamp row = timestampSpec row :=
  extract_timestamp_go_eq row timestamp_keys

/-- C4: with at least one bound present (truthy) and at least one bound
malformed (truthy but unparseable), the date filter returns its input
unchanged: the `ValueError` from bound parsing is caught and the whole
filter step is skipped, fail-open. -/
theorem C4_date_filter_fail_open (chats : List CandidateEntry)
    (sd ed : Option String)
    (hp : optStrTruthy sd = true ∨ optStrTruthy ed = true)
    (hm : malformedBound sd = true ∨ malformedBound ed = true) :
    filter_by_date chats sd ed = chats := by
  have hcond : (!(optStrTruthy sd) && !(optStrTruthy ed)) = false := by
    rcases hp with h | h <;> simp [h]
  have hnone : parseBound sd = none ∨ parseBound ed = none := by
    rcases hm with h | h
    · left
      cases sd with
      | none => simp [malformedBound] at h
      | some s =>
          simp only [malformedBound, Bool.and_eq_true, bne_iff_ne, ne_eq,
            Option.isNone_iff_eq_none] at h
          simp [parseBound, h.1, h.2]
    · right
      cases ed with
      | none => simp [malformedBound] at h
      | some s =>
          simp only [malformedBound, Bool.and_eq_true, bne_iff_ne, ne_eq,
            Option.isNone_iff_eq_none] at h
          simp [parseBound, h.1, h.2]
  unfold filter_by_date
  rw [hcond]
  simp only [Bool.false_eq_true, if_false]
  rcases hnone with h | h
  · rw [h]
  · rw [h]
    cases parseBound sd <;> rfl

/-- C4 witness: a malformed start bound (month 13, day 99) with a
populated entry list passes through unchanged. -/
theorem C4_witness :
    filter_by_date [entryMay31, entryJune1] (some "2024-13-99") none =
      [entryMay31, entryJune1] :=
  C4_date_filter_fail_open [entryMay31, entryJune1] (some "2024-13-99") none
    (Or.inl rfl) (Or.inl (by decide))

/-- C5: with well-formed bounds of which at least one is given, the date
filter retains exactly the entries whose timestamp is present and
parseable and lies within the bounds inclusively (`keepB`); with no
bound it is the identity; and the spec's boundary example holds: with
start 2024-06-01, the 2024-05-31T23:59:59 entry is excluded and the
2024-06-01T00:00:00 entry is included. -/
theorem C5_date_filter (chats : List CandidateEntry) (sd ed : Option String)
    (sdt edt : Option PyDateTime)
    (hs : parseBound sd = some sdt) (he : parseBound ed = some edt)
    (hb : optStrTruthy sd = true ∨ optStrTruthy ed = true) :
    filter_by_date chats sd ed = chats.filter (keepB sdt edt) ∧
    filter_by_date chats none none = chats ∧
    filter_by_date [entryMay31, entryJune1] (some "2024-06-01") none =
      [entryJune1] := by
  refine ⟨?_, rfl, by decide⟩
  have hcond : (!(optStrTruthy sd) && !(optStrTruthy ed)) = false := by
    rcases hb with h | h <;> simp [h]
  unfold filter_by_date
  rw [hcond]
  simp only [Bool.false_eq_true, if_false]
  rw [hs, he]
  exact dateLoop_eq_filter sdt edt chats

/-- C5 witness: the boundary instance with start bound 2024-06-01. -/
theorem C5_witness :
    filter_by_date [entryMay31, entryJune1] (some "2024-06-01") none =
      [entryMay31, entryJune1].filter
        (keepB (some ⟨2024, 6, 1, 0, 0, 0⟩) none) ∧
    filter_by_date [entryMay31, entryJune1] none none =
      [entryMay31, entryJune1] ∧
    filter_by_date [entryMay31, entryJune1] (some "2024-06-01") none =
      [entryJune1] :=
  C5_date_filter [entryMay31, entryJune1] (some "2024-06-01") none
    (some ⟨2024, 6, 1, 0, 0, 0⟩) none rfl rfl (Or.inl rfl)

/-- C6: the keyword filter is idempotent — filtering a filtered
collection again with the same keyword list returns it unchanged, each
surviving entry (including its `matched_keywords`) intact — and an empty
keyword list is the identity. -/
theorem C6_keyword_filter_idempotent (chats : List CandidateEntry)
    (keywords : List String) :
    filter_by_keywords (filter_by_keywords chats keywords) keywords =
      filter_by_keywords chats keywords ∧
    filter_by_keywords chats [] = chats := by
  refine ⟨?_, rfl⟩
  by_cases h : keywords.isEmpty = true
  · simp [filter_by_keywords, h]
  · simp only [filter_by_keywords, h, Bool.false_eq_true, if_false]
    exact filterKw_idem (keywords.map pyLower) chats

theorem extract_timestamp_single (v : Value) :
    extract_timestamp [("timestamp", v)] =
      (if truthy v = true then interpretTS v else none) := by
  unfold extract_timestamp
  rw [extract_timestamp_go_eq]
  by_cases ht : truthy v = true
  · cases hi : interpretTS v with
    | none => simp [timestamp_keys, List.lookup, ht, hi]
    | some r => simp [timestamp_keys, List.lookup, ht, hi]
  · simp [timestamp_keys, List.lookup, ht]

/-- C7: numeric timestamp interpretation is unit-consistent — for any
integer at most 1e12 whose thousandfold exceeds 1e12, extraction from
the seconds form and the milliseconds form agree, both equal to the
epoch rendering of the seconds value; in particular 1700000000 and
1700000000000 both render as 2023-11-14T22:13:20. -/
theorem C7_unit_consistency (s : Int) (h1 : s ≤ 10 ^ 12)
    (h2 : s * 1000 > 10 ^ 12) :
    extract_timestamp [("timestamp", Value.vInt s)] =
      extract_timestamp [("timestamp", Value.vInt (s * 1000))] ∧
    extract_timestamp [("timestamp", Value.vInt s)] = fromtimestampISO s ∧
    extract_timestamp [("timestamp", Value.vInt 1700000000)] =
      some "2023-11-14T22:13:20" := by
  have hpos : (0 : Int) < s := by nlinarith
  have hs0 : truthy (Value.vInt s) = true := by
    simp only [truthy, bne_iff_ne, ne_eq, decide_eq_true_eq]
    omega
  have hsm : truthy (Value.vInt (s * 1000)) = true := by
    simp only [truthy, bne_iff_ne, ne_eq, decide_eq_true_eq]
    omega
  have hdiv : s * 1000 / 1000 = s := by omega
  have e1 : extract_timestamp [("timestamp", Value.vInt s)] =
      fromtimestampISO s := by
    rw [extract_timestamp_single, if_pos hs0]
    simp only [interpretTS]
    rw [if_neg (not_lt.mpr h1)]
  have e2 : extract_timestamp [("timestamp", Value.vInt (s * 1000))] =
      fromtimestampISO s := by
    rw [extract_timestamp_single, if_pos hsm]
    simp only [interpretTS]
    rw [if_pos h2, hdiv]
  exact ⟨e1.trans e2.symm, e1, by decide⟩

/-- C7 witness: the spec's concrete seconds/milliseconds pair. -/
theorem C7_witness :
    extract_timestamp [("timestamp", Value.vInt 1700000000)] =
      extract_timestamp [("timestamp", Value.vInt (1700000000 * 1000))] ∧
    extract_timestamp [("timestamp", Value.vInt 1700000000)] =
      fromtimestampISO 1700000000 ∧
    extract_timestamp [("timestamp", Value.vInt 1700000000)] =
      some "2023-11-14T22:13:20" :=
  C7_unit_consistency 1700000000 (by norm_num) (by norm_num)

/-- C8: when both heuristics produce text for a row, exactly two entries
are emitted — first the strict one tagged `chat_data`, then the untagged
broad one — with no deduplication; when neither produces text the row
contributes nothing; and every emitted entry has non-empty text. -/
theorem C8_entry_emission (row : Row) :
    (∀ c t, extract_chat_content row = some c →
      extract_text_content_broad row = some t →
      process_row row =
        [mkEntry row c (some "chat_data"), mkEntry row t none]) ∧
    (extract_chat_content row = none →
      extract_text_content_broad row = none → process_row row = []) ∧
    (∀ e ∈ process_row row, e.text_content ≠ "") := by
  refine ⟨?_, ?_, ?_⟩
  · intro c t hc ht
    have hcne := extract_chat_content_ne_empty row c hc
    have htne := extract_text_content_broad_ne_empty row t ht
    unfold process_row
    rw [hc, ht]
    simp [hcne, htne]
  · intro hc ht
    unfold process_row
    rw [hc, ht]
    rfl
  · intro e he
    unfold process_row at he
    rcases List.mem_append.mp he with h | h
    · revert h
      cases hc : extract_chat_content row with
      | none => intro h; exact absurd h (List.not_mem_nil e)
      | some c =>
          have hcne := extract_chat_content_ne_empty row c hc
          simp only [hcne, if_false]
          intro h
          rcases List.mem_cons.mp h with h | h
          · subst h
            exact hcne
          · exact absurd h (List.not_mem_nil e)
    · revert h
      cases ht : extract_text_content_broad row with
      | none => intro h; exact absurd h (List.not_mem_nil e)
      | some t =>
          have htne := extract_text_content_broad_ne_empty row t ht
          simp only [htne, if_false]
          intro h
          rcases List.mem_cons.mp h with h | h
          · subst h
            exact htne
          · exact absurd h (List.not_mem_nil e)

/-- C8 witness: the sample row fires both heuristics and emits exactly
the tagged strict entry followed by the untagged broad entry. -/
theorem C8_witness :
    process_row row8 =
      [mkEntry row8 "CHAT_DATA - aiService.prompts: hello world!!"
         (some "chat_data"),
       mkEntry row8 "key: aiService.prompts\nvalue: hello world!!" none] :=
  (C8_entry_emission row8).1 _ _ (by decide) (by decide)

/-- C9 (implicit): both filters return a subsequence of their input —
no new entries, relative order preserved.  The date filter never edits
an entry (its output is a sublist of the input itself), and the keyword
filter's only edit is setting `matched_keywords` (its output is a
sublist of the input mapped through `withMatched`, which leaves every
other field unchanged). -/
theorem C9_filters_are_subsequences (chats : List CandidateEntry)
    (keywords : List String) (sd ed : Option String) :
    (filter_by_date chats sd ed).Sublist chats ∧
    (filter_by_keywords chats keywords).Sublist
      (chats.map (withMatched keywords)) ∧
    (∀ c, (withMatched keywords c).raw_data = c.raw_data ∧
      (withMatched keywords c).text_content = c.text_content ∧
      (withMatched keywords c).timestamp = c.timestamp ∧
      (withMatched keywords c).data_type = c.data_type) := by
  refine ⟨?_, ?_, ?_⟩
  · unfold filter_by_date
    split
    · exact List.Sublist.refl chats
    · split
      · rw [dateLoop_eq_filter]
        exact List.filter_sublist chats
      · exact List.Sublist.refl chats
  · by_cases h : keywords.isEmpty = true
    · have hmap : ∀ l : List CandidateEntry,
          List.map (withMatched keywords) l = l := by
        intro l
        induction l with
        | nil => rfl
        | cons a t ih =>
            rw [List.map_cons, ih]
            have ha : withMatched keywords a = a := by
              unfold withMatched
              rw [if_pos h]
            rw [ha]
      rw [hmap chats]
      simp only [filter_by_keywords, h, if_true]
      exact List.Sublist.refl chats
    · have hmap : ∀ l : List CandidateEntry,
          List.map (withMatched keywords) l =
            List.map (updKw (keywords.map pyLower)) l := by
        intro l
        induction l with
        | nil => rfl
        | cons a t ih =>
            rw [List.map_cons, List.map_cons, ih]
            have ha : withMatched keywords a =
                updKw (keywords.map pyLower) a := by
              unfold withMatched
              rw [if_neg h]
              rfl
            rw [ha]
      rw [hmap chats]
      simp only [filter_by_keywords, h, Bool.false_eq_true, if_false]
      exact filterKw_sublist (keywords.map pyLower) chats
  · intro c
    unfold withMatched
    by_cases h : keywords.isEmpty = true
    · rw [if_pos h]
      exact ⟨rfl, rfl, rfl, rfl⟩
    · rw [if_neg h]
      exact ⟨rfl, rfl, rfl, rfl⟩

/-- C10 (implicit): with a non-empty keyword list, every entry the
keyword filter emits carries `matched_keywords` equal to the lowercased
keywords that occur in its lowercased text, taken in the order of the
supplied list (`matchedOf`), which is a sublist of the fully lowercased
keyword list — the original-case keywords are never recorded. -/
theorem C10_matched_keywords_lowercased (chats : List CandidateEntry)
    (keywords : List String) (e : CandidateEntry)
    (hne : keywords ≠ [])
    (he : e ∈ filter_by_keywords chats keywords) :
    e.matched_keywords = some (matchedOf keywords e) ∧
    (matchedOf keywords e).Sublist (keywords.map pyLower) := by
  have hkw : keywords.isEmpty = false := by
    cases keywords with
    | nil => exact absurd rfl hne
    | cons a l => rfl
  simp only [filter_by_keywords, hkw, Bool.false_eq_true, if_false] at he
  exact ⟨filterKw_mem (keywords.map pyLower) chats e he,
    List.filter_sublist _⟩

/-- C10 witness: filtering a sample entry by keywords with uppercase
letters records the lowercased matching keyword. -/
theorem C10_witness :
    sampleEntryMatched.matched_keywords =
      some (matchedOf ["Rails", "Java"] sampleEntryMatched) ∧
    (matchedOf ["Rails", "Java"] sampleEntryMatched).Sublist
      (["Rails", "Java"].map pyLower) :=
  C10_matched_keywords_lowercased [sampleEntry] ["Rails", "Java"]
    sampleEntryMatched (by decide)
    (by
      rw [show filter_by_keywords [sampleEntry] ["Rails", "Java"] =
        [sampleEntryMatched] from rfl]
      exact List.mem_cons_self _ _)
